import Mathlib

/-!
Shallow embedding of the MPOW data-loading pipeline (`src/mpow/load_data.py`).

A spreadsheet cell carries a raw value (a blank cell is modelled as `none`)
and a background-colour index.  The row-major scan of a rectangular sheet
region (`sheet_to_dataframe`), the two cell extractors, the per-patient
day-number derivation of `load_scores_data`, the left joins of
`intraday_data`, the group-by aggregation of `daily_data`, the integrity
report of `integrity_intraday_data`, the source-validation behaviour of the
loaders, and the HDF store build sequence of `setup_hdf` are modelled as
pure functions on lists.
-/

/-- Excel colour constant, `BG_GREEN = 31` in the source. -/
def BG_GREEN : Nat := 31

/-- Excel colour constant, `BG_ORANGE = 29`: the day-start colour tested by
`pain_score_extractor`. -/
def BG_ORANGE : Nat := 29

/-- Excel colour constant, `BG_RED = 10`: the null-day ("empty day") colour. -/
def BG_RED : Nat := 10

/-- A spreadsheet cell: the raw value (`none` when the cell is blank, i.e.
`cell.value == ''` in the source) together with the background colour index
obtained through `cell_bg_color`. -/
structure Cell where
  value : Option ℚ
  color : Nat
deriving DecidableEq

/-- A sheet assigns a cell to every (row, column) position. -/
def Sheet : Type := Nat → Nat → Cell

/-- One record of the raw intake table: `intake_extractor` returns
`(row, col - 4, cell.value)` for a non-blank cell. -/
structure IntakeRec where
  patient : Nat
  dayNum : Int
  intake : ℚ
deriving DecidableEq

/-- `intake_extractor`: a non-blank cell yields `(row, col - 4, value)`;
a blank cell yields nothing. -/
def intake_extractor (row col : Nat) (cell : Cell) : Option IntakeRec :=
  match cell.value with
  | some v => some { patient := row, dayNum := (col : Int) - 4, intake := v }
  | none => none

/-- One record emitted by `pain_score_extractor`:
`(row, col - 15, value-or-NaN, day-start flag)`. -/
structure ScoreRec where
  patient : Nat
  ordinal : Int
  painScore : Option ℚ
  dayStart : Nat
deriving DecidableEq

/-- `pain_score_extractor`: a non-blank cell yields its value with the flag
`int(cell_color == BG_ORANGE)`; a blank cell yields `(NaN, 1)` when the
background is `BG_RED` (the code's comment: red signifies an empty day) and
nothing otherwise. -/
def pain_score_extractor (row col : Nat) (cell : Cell) : Option ScoreRec :=
  match cell.value with
  | some v =>
      some { patient := row, ordinal := (col : Int) - 15, painScore := some v,
             dayStart := if cell.color == BG_ORANGE then 1 else 0 }
  | none =>
      if cell.color == BG_RED then
        some { patient := row, ordinal := (col : Int) - 15, painScore := none, dayStart := 1 }
      else
        none

/-- `sheet_to_dataframe`: visit the rectangular region of `num_rows` rows and
`num_cols` columns starting at `start` in row-major order
(`itertools.product(range(row0, row0+num_rows), range(col0, col0+num_cols))`)
and collect the records the extractor emits, in visitation order. -/
def sheet_to_dataframe {α : Type} (sheet : Sheet)
    (cell_extractor : Nat → Nat → Cell → Option α)
    (numRows numCols : Nat) (start : Nat × Nat) : List α :=
  (List.range numRows).flatMap fun i =>
    (List.range numCols).filterMap fun j =>
      cell_extractor (start.1 + i) (start.2 + j) (sheet (start.1 + i) (start.2 + j))

/-- A row of the pain-score table after `load_scores_data` has appended the
derived `DayNum` column. -/
structure ScoreRow where
  patient : Nat
  ordinal : Int
  painScore : Option ℚ
  dayStart : Nat
  dayNum : Nat
deriving DecidableEq

/-- Per-patient running sum of the `DayStart` column, the semantics of
`df[['Patient', 'DayStart']].groupby('Patient').cumsum()`: `acc` holds each
patient's running total so far, rows keep their original order. -/
def addDayNumAux : List ScoreRec → (Nat → Nat) → List ScoreRow
  | [], _ => []
  | r :: rest, acc =>
    { patient := r.patient, ordinal := r.ordinal, painScore := r.painScore,
      dayStart := r.dayStart, dayNum := acc r.patient + r.dayStart } ::
      addDayNumAux rest
        (fun q => if q = r.patient then acc r.patient + r.dayStart else acc q)

/-- Append the derived `DayNum` column (cumulative sum of `DayStart`, scoped
per patient, starting from zero). -/
def addDayNum (recs : List ScoreRec) : List ScoreRow :=
  addDayNumAux recs (fun _ => 0)

/-- `load_scores_data`: scan the pain-score region (155 rows, 202 columns,
starting at cell (1, 16)) with `pain_score_extractor`, then derive `DayNum`
as the per-patient cumulative sum of `DayStart`.  The sheet content is a
parameter; everything else follows the source. -/
def load_scores_data (sheet : Sheet) : List ScoreRow :=
  addDayNum (sheet_to_dataframe sheet pain_score_extractor 155 202 (1, 16))

/-- `load_intake_data`: scan the intake region (154 rows, 28 columns,
starting at cell (1, 5)) with `intake_extractor`. -/
def load_intake_data (sheet : Sheet) : List IntakeRec :=
  sheet_to_dataframe sheet intake_extractor 154 28 (1, 5)

/-- The rows of the pain-score table belonging to one patient, in scan
order. -/
def patientRows (sheet : Sheet) (p : Nat) : List ScoreRow :=
  (load_scores_data sheet).filter (fun r => r.patient == p)

/-- Running-sum list: `cumsumFrom c [d1, d2, ...] = [c+d1, c+d1+d2, ...]`. -/
def cumsumFrom (c : Nat) : List Nat → List Nat
  | [] => []
  | d :: ds => (c + d) :: cumsumFrom (c + d) ds

/-- One row of the patient-detail table, after `load_detail_data`'s column
renaming. -/
structure DetailRec where
  patient : Nat
  ageAtAdmit : ℚ
  gender : String
  impairmentGroup : String
  depression : ℚ
deriving DecidableEq

/-- A pain-score row after the first left join of `intraday_data`
(`scores.merge(intake, 'left', on=['Patient', 'DayNum'])`): the intake value
is missing when no intake row matched. -/
structure ScoreIntakeRow where
  patient : Nat
  ordinal : Int
  painScore : Option ℚ
  dayStart : Nat
  dayNum : Nat
  intake : Option ℚ
deriving DecidableEq

/-- A row of the full intraday table after the second left join
(`.merge(details, 'left', on='Patient')`): demographic fields are missing
when the patient has no detail record. -/
structure IntradayRow where
  patient : Nat
  ordinal : Int
  painScore : Option ℚ
  dayStart : Nat
  dayNum : Nat
  intake : Option ℚ
  ageAtAdmit : Option ℚ
  gender : Option String
  impairmentGroup : Option String
  depression : Option ℚ
deriving DecidableEq

/-- The pain-score fields of a joined row. -/
def ScoreIntakeRow.scorePart (r : ScoreIntakeRow) : ScoreRow :=
  { patient := r.patient, ordinal := r.ordinal, painScore := r.painScore,
    dayStart := r.dayStart, dayNum := r.dayNum }

/-- The pain-score-plus-intake fields of a full intraday row. -/
def IntradayRow.scoreIntakePart (r : IntradayRow) : ScoreIntakeRow :=
  { patient := r.patient, ordinal := r.ordinal, painScore := r.painScore,
    dayStart := r.dayStart, dayNum := r.dayNum, intake := r.intake }

/-- The pain-score fields of a full intraday row. -/
def IntradayRow.scorePart (r : IntradayRow) : ScoreRow :=
  { patient := r.patient, ordinal := r.ordinal, painScore := r.painScore,
    dayStart := r.dayStart, dayNum := r.dayNum }

/-- Left join of the pain-score table onto the intake table on
(`Patient`, `DayNum`): every scores row is kept; it is expanded once per
matching intake row, or kept once with a missing intake value when no intake
row matches. -/
def merge_intake (scores : List ScoreRow) (intake : List IntakeRec) :
    List ScoreIntakeRow :=
  scores.flatMap fun s =>
    match intake.filter (fun i => i.patient == s.patient && i.dayNum == (s.dayNum : Int)) with
    | [] => [{ patient := s.patient, ordinal := s.ordinal, painScore := s.painScore,
               dayStart := s.dayStart, dayNum := s.dayNum, intake := none }]
    | ms => ms.map fun i =>
        { patient := s.patient, ordinal := s.ordinal, painScore := s.painScore,
          dayStart := s.dayStart, dayNum := s.dayNum, intake := some i.intake }

/-- Left join of the combined table onto the detail table on `Patient`:
every row is kept; demographic fields are missing when the patient has no
detail record. -/
def merge_details (rows : List ScoreIntakeRow) (details : List DetailRec) :
    List IntradayRow :=
  rows.flatMap fun r =>
    match details.filter (fun d => d.patient == r.patient) with
    | [] => [{ patient := r.patient, ordinal := r.ordinal, painScore := r.painScore,
               dayStart := r.dayStart, dayNum := r.dayNum, intake := r.intake,
               ageAtAdmit := none, gender := none, impairmentGroup := none,
               depression := none }]
    | ds => ds.map fun d =>
        { patient := r.patient, ordinal := r.ordinal, painScore := r.painScore,
          dayStart := r.dayStart, dayNum := r.dayNum, intake := r.intake,
          ageAtAdmit := some d.ageAtAdmit, gender := some d.gender,
          impairmentGroup := some d.impairmentGroup, depression := some d.depression }

/-- The two chained left joins of `intraday_data`, over already-loaded
tables. -/
def intraday_tables (scores : List ScoreRow) (intake : List IntakeRec)
    (details : List DetailRec) : List IntradayRow :=
  merge_details (merge_intake scores intake) details

/-- `intraday_data`: load the scores and intake tables from their sheets and
chain the two left joins with the given detail table (in the source the
detail table comes from a CSV file or a third sheet). -/
def intraday_data (sheetScores sheetIntake : Sheet) (details : List DetailRec) :
    List IntradayRow :=
  intraday_tables (load_scores_data sheetScores) (load_intake_data sheetIntake) details

/-- One row of the daily aggregated table. -/
structure DailyRow where
  patient : Nat
  dayNum : Nat
  intake : Option ℚ
  painScore : ℚ
  numObs : Nat
  ageAtAdmit : Option ℚ
  gender : Option String
  impairmentGroup : Option String
  depression : Option ℚ
deriving DecidableEq

/-- First-occurrence deduplication, used to model the group keys of a pandas
`groupby`.  (pandas additionally sorts group keys; every claim below is
insensitive to the order of the groups.) -/
def dedupAppend {α : Type} [DecidableEq α] (l : List α) : List α :=
  l.foldl (fun acc k => if k ∈ acc then acc else acc ++ [k]) []

/-- The aggregation of one (`Patient`, `DayNum`) group of the intraday table,
per the `agg_funcs` of `daily_data`: `Intake` and the demographic columns
take `x.values[0]` (the group's first value), `PainScore` takes `x.sum()`
(missing values skipped, empty/all-missing sum is 0), and `Ordinal` takes
`x.count()` which, `Ordinal` never being missing, is the group size; the
count column is renamed `NumObs`. -/
def aggGroup (rows : List IntradayRow) (p d : Nat) : DailyRow :=
  let g := rows.filter (fun r => r.patient == p && r.dayNum == d)
  { patient := p
    dayNum := d
    intake := g.head?.bind (fun r => r.intake)
    painScore := g.foldl (fun a r => a + r.painScore.getD 0) 0
    numObs := g.length
    ageAtAdmit := g.head?.bind (fun r => r.ageAtAdmit)
    gender := g.head?.bind (fun r => r.gender)
    impairmentGroup := g.head?.bind (fun r => r.impairmentGroup)
    depression := g.head?.bind (fun r => r.depression) }

/-- `daily_data`: group the intraday table by (`Patient`, `DayNum`) and apply
the fixed per-column reducers.  The intraday table is a parameter (the source
computes it with `intraday_data`). -/
def daily_data (rows : List IntradayRow) : List DailyRow :=
  (dedupAppend (rows.map fun r => (r.patient, r.dayNum))).map
    fun k => aggGroup rows k.1 k.2

/-- One row of the integrity report of `integrity_intraday_data`. -/
structure IntegrityRow where
  patient : Nat
  numPainScoreDays : Nat
  numIntakeDays : Int
deriving DecidableEq

/-- Per-patient `max(DayNum)` over the pain-score table
(`pain_scores.groupby('Patient')[['DayNum']].max()`). -/
def maxScoreDays (scores : List ScoreRow) (p : Nat) : Nat :=
  ((scores.filter (fun r => r.patient == p)).map (fun r => r.dayNum)).foldl max 0

/-- Per-patient `max(DayNum)` over the intake table
(`intake.groupby('Patient')[['DayNum']].max()`). -/
def maxIntakeDays (intake : List IntakeRec) (p : Nat) : Int :=
  match (intake.filter (fun i => i.patient == p)).map (fun i => i.dayNum) with
  | [] => 0
  | x :: xs => xs.foldl max x

/-- `integrity_intraday_data`: join the two per-patient maxima on the patient
index (an inner join, so only patients present in both tables appear) and
keep the rows where `NumPainScoreDays != NumIntakeDays`. -/
def integrity_intraday_data (scores : List ScoreRow) (intake : List IntakeRec) :
    List IntegrityRow :=
  (dedupAppend (scores.map fun r => r.patient)).filterMap fun p =>
    if intake.any (fun i => i.patient == p) then
      if (maxScoreDays scores p : Int) = maxIntakeDays intake p then none
      else some { patient := p, numPainScoreDays := maxScoreDays scores p,
                  numIntakeDays := maxIntakeDays intake p }
    else none

/-- Path constant `FILE_XL_DETAIL` (the patient-features CSV). -/
def FILE_XL_DETAIL : String := "data/patient features.csv"

/-- Path constant `FILE_PROTO` (the workbook both Sources point at). -/
def FILE_PROTO : String := "data/MPOW-Data-20190206_xls.xls"

/-- Sheet-name constant `SHEET_INTAKE`. -/
def SHEET_INTAKE : String := "OMeq Intake"

/-- Sheet-name constant `SHEET_SCORES`. -/
def SHEET_SCORES : String := "Pain Scores"

/-- The `Source` named tuple: a file path and a page-name prefix (field
`page_prefix` in the source).  Python compares named tuples structurally. -/
structure Source where
  file : String
  pagePrefix : String
deriving DecidableEq

/-- `Sources.Retrospective`. -/
def Sources.Retrospective : Source :=
  { file := FILE_PROTO, pagePrefix := "RETROSPECTIVE" }

/-- `Sources.Protocol`. -/
def Sources.Protocol : Source :=
  { file := FILE_PROTO, pagePrefix := "PROTOCOL" }

/-- The first externally visible action a loader takes: an input/output
action (opening a workbook, reading a CSV or an Excel sheet) or the raising
of `ValueError('Unknown source: ...')`. -/
inductive LoadAction where
  | openWorkbook (path : String) (sheetName : String)
  | readCsv (path : String)
  | readExcel (path : String) (sheetName : String)
  | raiseValueError
deriving DecidableEq

/-- Whether an action touches a file (everything except the `ValueError`). -/
def LoadAction.isFileAccess : LoadAction → Bool
  | .raiseValueError => false
  | _ => true

/-- The first action of `load_intake_data(source)`: it calls
`sheet_to_dataframe`, which immediately opens the workbook at `source.file`;
no validation of the source happens first. -/
def load_intake_first_action (source : Source) : LoadAction :=
  .openWorkbook source.file (source.pagePrefix ++ " " ++ SHEET_INTAKE)

/-- The first action of `load_scores_data(source)`: likewise an unconditional
workbook open. -/
def load_scores_first_action (source : Source) : LoadAction :=
  .openWorkbook source.file (source.pagePrefix ++ " " ++ SHEET_SCORES)

/-- The first action of `load_detail_data(source)`: read the CSV for
`Sources.Retrospective`, read the Excel sheet for `Sources.Protocol`, and
raise `ValueError` for any other source, before any file is touched. -/
def load_detail_first_action (source : Source) : LoadAction :=
  if source = Sources.Retrospective then .readCsv FILE_XL_DETAIL
  else if source = Sources.Protocol then
    .readExcel source.file (source.pagePrefix ++ " " ++ "Data collection")
  else .raiseValueError

/-- The HDF store, modelled by the list of table keys it currently holds. -/
abbrev HdfStore : Type := List String

/-- `DataFrame.to_hdf(..., key, format='table')` on a store that was just
recreated: the key is added (an existing key is overwritten in place, which
at the key-set level leaves the store unchanged). -/
def to_hdf (store : HdfStore) (key : String) : HdfStore :=
  if key ∈ store then store else store ++ [key]

/-- One step of the store build: `os.remove(FILE_HDF)` or one `to_hdf`
call. -/
inductive HdfStep where
  | removeFile
  | writeTable (key : String)
deriving DecidableEq

/-- Apply one build step to the store.  Removing the file leaves an empty
store (the source only removes it when it exists; at the key-set level both
branches end in the empty store). -/
def applyStep (store : HdfStore) : HdfStep → HdfStore
  | .removeFile => []
  | .writeTable k => to_hdf store k

/-- The step sequence of `setup_hdf()`: remove the existing store file, then
`_setup_hdf` for each of the two sources, each writing its intraday, daily
and detail tables in order under `page_prefix.lower() + '_' + key`. -/
def setup_hdf_steps : List HdfStep :=
  [HdfStep.removeFile,
   HdfStep.writeTable "retrospective_intraday",
   HdfStep.writeTable "retrospective_daily",
   HdfStep.writeTable "retrospective_detail",
   HdfStep.writeTable "protocol_intraday",
   HdfStep.writeTable "protocol_daily",
   HdfStep.writeTable "protocol_detail"]

/-- Run a prefix of the build steps on a store. -/
def runSteps (store : HdfStore) (steps : List HdfStep) : HdfStore :=
  steps.foldl applyStep store

/-- `setup_hdf()` as a store transformer. -/
def setup_hdf (store : HdfStore) : HdfStore :=
  runSteps store setup_hdf_steps

/-- C1 counterexample: a blank cell with the null-day colour `BG_RED` at raw
column 18 (logical position 3) is emitted with `DayStart = 1`, not with the
`DayStart = 0` the claim states. -/
theorem pain_score_extractor_nullday_counterexample :
    pain_score_extractor 2 18 { value := none, color := BG_RED }
      = some { patient := 2, ordinal := 3, painScore := none, dayStart := 1 }
    ∧ pain_score_extractor 2 18 { value := none, color := BG_RED }
      ≠ some { patient := 2, ordinal := 3, painScore := none, dayStart := 0 } := by
  decide

/-- C1 (amended): for every blank pain-score cell with the null-day colour the
scan emits a record with the cell's logical column position as `Ordinal`, a
missing `PainScore`, and `DayStart = 1` — so the row advances the patient's
`DayNum` by one. -/
theorem pain_score_extractor_nullday (row col : Nat) :
    pain_score_extractor row col { value := none, color := BG_RED }
      = some { patient := row, ordinal := (col : Int) - 15, painScore := none,
               dayStart := 1 } := by
  rfl

/-- C8: a blank cell whose background is the day-start colour (and not the
null-day colour) yields no record at all. -/
theorem pain_score_extractor_blank_daystart_skip (row col : Nat) :
    pain_score_extractor row col { value := none, color := BG_ORANGE } = none := by
  rfl

/-- C10: every non-blank cell is emitted as an ordinary observation whose
`DayStart` flag is 1 exactly when the background is the day-start colour and
0 otherwise; in particular a non-blank cell with the null-day colour is a
normal observation with `DayStart = 0`, never a recorded-empty-day marker. -/
theorem pain_score_extractor_nonblank (row col : Nat) (v : ℚ) (c : Nat) :
    pain_score_extractor row col { value := some v, color := c }
      = some { patient := row, ordinal := (col : Int) - 15, painScore := some v,
               dayStart := if c = BG_ORANGE then 1 else 0 }
    ∧ pain_score_extractor row col { value := some v, color := BG_RED }
      = some { patient := row, ordinal := (col : Int) - 15, painScore := some v,
               dayStart := 0 } := by
  constructor
  · simp [pain_score_extractor, beq_iff_eq]
  · rfl

/-- C6: evaluation of the `setup_hdf` step sequence on a store that already
holds a table.  The build completes with the six fresh tables, but the state
right after the initial file removal is empty: it differs from both the
previous store contents and the final contents, so a reader (or a failure)
at that point observes a partially-written store and the previous contents
are already gone. -/
theorem setup_hdf_not_atomic :
    setup_hdf ["old_table"] =
      ["retrospective_intraday", "retrospective_daily", "retrospective_detail",
       "protocol_intraday", "protocol_daily", "protocol_detail"]
    ∧ runSteps ["old_table"] (setup_hdf_steps.take 1) = []
    ∧ runSteps ["old_table"] (setup_hdf_steps.take 1) ≠ ["old_table"]
    ∧ runSteps ["old_table"] (setup_hdf_steps.take 1) ≠ setup_hdf ["old_table"] := by
  decide

/-- C7 counterexample: for the unknown source `("other.xls", "OTHER")` (which
is neither `Sources.Retrospective` nor `Sources.Protocol`), `load_intake_data`
does not reject before I/O — its first action is opening the workbook. -/
theorem unknown_source_counterexample :
    Source.mk "other.xls" "OTHER" ≠ Sources.Retrospective
    ∧ Source.mk "other.xls" "OTHER" ≠ Sources.Protocol
    ∧ (load_intake_first_action (Source.mk "other.xls" "OTHER")).isFileAccess = true
    ∧ load_intake_first_action (Source.mk "other.xls" "OTHER")
        ≠ LoadAction.raiseValueError := by
  decide

/-- C7 (amended): only `load_detail_data` rejects an unknown `Source` tag
(with `ValueError`, before any I/O); `load_intake_data` and
`load_scores_data` perform no source validation and immediately attempt to
open the workbook named by the source. -/
theorem unknown_source_validation (s : Source)
    (h1 : s ≠ Sources.Retrospective) (h2 : s ≠ Sources.Protocol) :
    load_detail_first_action s = LoadAction.raiseValueError
    ∧ (load_detail_first_action s).isFileAccess = false
    ∧ (load_intake_first_action s).isFileAccess = true
    ∧ (load_scores_first_action s).isFileAccess = true := by
  simp [load_detail_first_action, h1, h2, load_intake_first_action,
    load_scores_first_action, LoadAction.isFileAccess]

/-- C7 witness: the amended behaviour at the concrete unknown source
`("x.xls", "X")`. -/
theorem unknown_source_validation_witness :
    load_detail_first_action (Source.mk "x.xls" "X") = LoadAction.raiseValueError
    ∧ (load_detail_first_action (Source.mk "x.xls" "X")).isFileAccess = false
    ∧ (load_intake_first_action (Source.mk "x.xls" "X")).isFileAccess = true
    ∧ (load_scores_first_action (Source.mk "x.xls" "X")).isFileAccess = true :=
  unknown_source_validation (Source.mk "x.xls" "X") (by decide) (by decide)

theorem cumsumFrom_head (c : Nat) (ds : List Nat) :
    (cumsumFrom c ds).get? 0 = (ds.get? 0).map (fun d => c + d) := by
  cases ds <;> rfl

theorem cumsumFrom_get_succ (ds : List Nat) : ∀ (c i : Nat),
    (cumsumFrom c ds).get? (i + 1)
      = ((cumsumFrom c ds).get? i).bind
          (fun a => (ds.get? (i + 1)).map (fun d => a + d)) := by
  induction ds with
  | nil => intro c i; simp [cumsumFrom]
  | cons d ds ih =>
    intro c i
    cases i with
    | zero => cases ds <;> rfl
    | succ i => simpa [cumsumFrom] using ih (c + d) i

theorem le_of_mem_cumsumFrom (ds : List Nat) : ∀ (c x : Nat),
    x ∈ cumsumFrom c ds → c ≤ x := by
  induction ds with
  | nil => intro c x h; simp [cumsumFrom] at h
  | cons d ds ih =>
    intro c x h
    simp only [cumsumFrom, List.mem_cons] at h
    rcases h with rfl | h
    · exact Nat.le_add_right c d
    · exact le_trans (Nat.le_add_right c d) (ih (c + d) x h)

theorem cumsumFrom_sorted (ds : List Nat) : ∀ c : Nat,
    List.Sorted (· ≤ ·) (cumsumFrom c ds) := by
  induction ds with
  | nil => intro c; simp [cumsumFrom]
  | cons d ds ih =>
    intro c
    rw [cumsumFrom, List.sorted_cons]
    exact ⟨fun b hb => le_of_mem_cumsumFrom ds (c + d) b hb, ih (c + d)⟩

theorem addDayNumAux_filter_dayStart (recs : List ScoreRec) :
    ∀ (acc : Nat → Nat) (p : Nat),
    ((addDayNumAux recs acc).filter (fun r => r.patient == p)).map (fun r => r.dayStart)
      = (recs.filter (fun r => r.patient == p)).map (fun r => r.dayStart) := by
  induction recs with
  | nil => intro acc p; rfl
  | cons r rest ih =>
    intro acc p
    by_cases hp : r.patient = p
    · simp [addDayNumAux, List.filter_cons, hp, ih]
    · simp [addDayNumAux, List.filter_cons, hp, ih]

theorem addDayNumAux_filter_dayNum (recs : List ScoreRec) :
    ∀ (acc : Nat → Nat) (p : Nat),
    ((addDayNumAux recs acc).filter (fun r => r.patient == p)).map (fun r => r.dayNum)
      = cumsumFrom (acc p)
          ((recs.filter (fun r => r.patient == p)).map (fun r => r.dayStart)) := by
  induction recs with
  | nil => intro acc p; rfl
  | cons r rest ih =>
    intro acc p
    by_cases hp : r.patient = p
    · subst hp
      simp [addDayNumAux, List.filter_cons, cumsumFrom, ih]
    · have hp' : ¬ p = r.patient := fun h => hp h.symm
      simp [addDayNumAux, List.filter_cons, hp, hp', ih]

theorem patientRows_dayNum_cumsum (sheet : Sheet) (p : Nat) :
    (patientRows sheet p).map (fun r => r.dayNum)
      = cumsumFrom 0 ((patientRows sheet p).map (fun r => r.dayStart)) := by
  have hds := addDayNumAux_filter_dayStart
      (sheet_to_dataframe sheet pain_score_extractor 155 202 (1, 16)) (fun _ => 0) p
  have hdn := addDayNumAux_filter_dayNum
      (sheet_to_dataframe sheet pain_score_extractor 155 202 (1, 16)) (fun _ => 0) p
  simp only [patientRows, load_scores_data, addDayNum]
  rw [hdn, hds]

/-- C2: within each patient's rows of the table produced by
`load_scores_data`, `DayNum` is the running (cumulative) sum of the
`DayStart` flags in scan order; it is monotonically non-decreasing, and each
row's `DayNum` is the previous row's `DayNum` plus that row's `DayStart`
(so it rises by exactly one at `DayStart = 1` rows and is constant at
`DayStart = 0` rows). -/
theorem load_scores_dayNum_cumsum (sheet : Sheet) (p : Nat) :
    (patientRows sheet p).map (fun r => r.dayNum)
        = cumsumFrom 0 ((patientRows sheet p).map (fun r => r.dayStart))
    ∧ List.Sorted (· ≤ ·) ((patientRows sheet p).map (fun r => r.dayNum))
    ∧ ∀ i : Nat,
        ((patientRows sheet p).map (fun r => r.dayNum)).get? (i + 1)
          = (((patientRows sheet p).map (fun r => r.dayNum)).get? i).bind
              (fun a =>
                (((patientRows sheet p).map (fun r => r.dayStart)).get? (i + 1)).map
                  (fun d => a + d)) := by
  have hmain := patientRows_dayNum_cumsum sheet p
  refine ⟨hmain, ?_, ?_⟩
  · rw [hmain]; exact cumsumFrom_sorted _ 0
  · intro i; rw [hmain]; exact cumsumFrom_get_succ _ 0 i

theorem takeWhile_dayNum_const (rows : List ScoreRow) : ∀ c : Nat,
    rows.map (fun r => r.dayNum) = cumsumFrom c (rows.map (fun r => r.dayStart)) →
    (rows.takeWhile (fun r => r.dayStart == 0)).map (fun r => r.dayNum)
      = List.replicate ((rows.takeWhile (fun r => r.dayStart == 0)).length) c := by
  induction rows with
  | nil => intro c _; rfl
  | cons r rest ih =>
    intro c h
    simp only [List.map_cons, cumsumFrom, List.cons.injEq] at h
    obtain ⟨h1, h2⟩ := h
    cases hb : (r.dayStart == 0) with
    | true =>
      have h0 : r.dayStart = 0 := by simpa using hb
      rw [h0, Nat.add_zero] at h1 h2
      rw [List.takeWhile_cons, if_pos hb, List.map_cons, List.length_cons,
        List.replicate_succ, h1, ih c h2]
    | false =>
      simp [List.takeWhile_cons, hb]

/-- C9: a patient's rows that precede the first `DayStart = 1` row (in
particular all rows of a patient whose emitted rows never set `DayStart`)
receive `DayNum = 0`, not 1, in the table produced by `load_scores_data`. -/
theorem load_scores_initial_rows_dayNum_zero (sheet : Sheet) (p : Nat) :
    ((patientRows sheet p).takeWhile (fun r => r.dayStart == 0)).map (fun r => r.dayNum)
      = List.replicate
          (((patientRows sheet p).takeWhile (fun r => r.dayStart == 0)).length) 0 :=
  takeWhile_dayNum_const (patientRows sheet p) 0 (patientRows_dayNum_cumsum sheet p)

theorem mem_dedup_foldl {α : Type} [DecidableEq α] (l : List α) : ∀ (acc : List α) (x : α),
    x ∈ l.foldl (fun acc k => if k ∈ acc then acc else acc ++ [k]) acc ↔
      x ∈ acc ∨ x ∈ l := by
  induction l with
  | nil => intro acc x; simp
  | cons k l ih =>
    intro acc x
    rw [List.foldl_cons, ih]
    by_cases hk : k ∈ acc
    · simp only [if_pos hk, List.mem_cons]
      constructor
      · rintro (h | h)
        · exact Or.inl h
        · exact Or.inr (Or.inr h)
      · rintro (h | h | h)
        · exact Or.inl h
        · exact Or.inl (h ▸ hk)
        · exact Or.inr h
    · simp only [if_neg hk, List.mem_append, List.mem_singleton, List.mem_cons]
      tauto

theorem nodup_dedup_foldl {α : Type} [DecidableEq α] (l : List α) : ∀ acc : List α,
    acc.Nodup → (l.foldl (fun acc k => if k ∈ acc then acc else acc ++ [k]) acc).Nodup := by
  induction l with
  | nil => intro acc h; simpa
  | cons k l ih =>
    intro acc h
    rw [List.foldl_cons]
    apply ih
    by_cases hk : k ∈ acc
    · simpa [hk]
    · rw [if_neg hk, List.nodup_append]
      refine ⟨h, List.nodup_singleton k, ?_⟩
      intro a ha hak
      rw [List.mem_singleton] at hak
      exact hk (hak ▸ ha)

theorem mem_dedupAppend {α : Type} [DecidableEq α] (l : List α) (x : α) :
    x ∈ dedupAppend l ↔ x ∈ l := by
  rw [dedupAppend, mem_dedup_foldl]
  simp

theorem nodup_dedupAppend {α : Type} [DecidableEq α] (l : List α) :
    (dedupAppend l).Nodup :=
  nodup_dedup_foldl l [] (by simp)

/-- C5: the integrity report contains exactly the rows whose patient occurs
in both raw tables, whose two fields are that patient's maximum `DayNum` in
the pain-score table and in the intake table respectively, and whose two
maxima differ; a patient whose maxima agree is absent. -/
theorem integrity_report_spec (scores : List ScoreRow) (intake : List IntakeRec)
    (r : IntegrityRow) :
    r ∈ integrity_intraday_data scores intake ↔
      (r.patient ∈ scores.map (fun s => s.patient)
       ∧ r.patient ∈ intake.map (fun i => i.patient)
       ∧ r.numPainScoreDays = maxScoreDays scores r.patient
       ∧ r.numIntakeDays = maxIntakeDays intake r.patient
       ∧ (r.numPainScoreDays : Int) ≠ r.numIntakeDays) := by
  rw [integrity_intraday_data, List.mem_filterMap]
  constructor
  · rintro ⟨p, hp, hf⟩
    rw [mem_dedupAppend] at hp
    by_cases hany : intake.any (fun i => i.patient == p) = true
    · rw [if_pos hany] at hf
      by_cases heq : (maxScoreDays scores p : Int) = maxIntakeDays intake p
      · rw [if_pos heq] at hf; exact absurd hf (by simp)
      · rw [if_neg heq, Option.some.injEq] at hf
        subst hf
        rcases List.any_eq_true.1 hany with ⟨i, hi, hip⟩
        refine ⟨hp, List.mem_map.2 ⟨i, hi, by simpa using hip⟩, rfl, rfl, heq⟩
    · rw [if_neg hany] at hf; exact absurd hf (by simp)
  · rintro ⟨h1, h2, h3, h4, h5⟩
    refine ⟨r.patient, (mem_dedupAppend _ _).2 h1, ?_⟩
    have hany : intake.any (fun i => i.patient == r.patient) = true := by
      rcases List.mem_map.1 h2 with ⟨i, hi, hip⟩
      exact List.any_eq_true.2 ⟨i, hi, by simp [hip]⟩
    rw [if_pos hany, if_neg (by rw [← h3, ← h4] at *; exact h5)]
    cases r with
    | mk rp rs ri =>
      simp only at h3 h4
      rw [← h3, ← h4]

theorem merge_intake_mem (scores : List ScoreRow) (intake : List IntakeRec)
    (r : ScoreIntakeRow) (hr : r ∈ merge_intake scores intake) :
    r.scorePart ∈ scores
    ∧ (intake.any (fun i => i.patient == r.patient && i.dayNum == (r.dayNum : Int)) = false
        → r.intake = none) := by
  rw [merge_intake, List.mem_flatMap] at hr
  obtain ⟨s, hs, hr⟩ := hr
  cases hfil : intake.filter
      (fun i => i.patient == s.patient && i.dayNum == (s.dayNum : Int)) with
  | nil =>
    rw [hfil] at hr
    rw [List.mem_singleton] at hr
    subst hr
    exact ⟨hs, fun _ => rfl⟩
  | cons i ms =>
    rw [hfil] at hr
    rw [List.mem_map] at hr
    obtain ⟨j, hj, hr⟩ := hr
    subst hr
    refine ⟨hs, fun hfalse => ?_⟩
    exfalso
    have hi : i ∈ intake.filter
        (fun i => i.patient == s.patient && i.dayNum == (s.dayNum : Int)) := by
      rw [hfil]; exact List.mem_cons_self i ms
    rw [List.mem_filter] at hi
    have := (List.any_eq_false.1 hfalse) i hi.1
    exact this hi.2

theorem merge_details_mem (rows : List ScoreIntakeRow) (details : List DetailRec)
    (r : IntradayRow) (hr : r ∈ merge_details rows details) :
    r.scoreIntakePart ∈ rows
    ∧ (details.any (fun d => d.patient == r.patient) = false →
        r.ageAtAdmit = none ∧ r.gender = none ∧ r.impairmentGroup = none
          ∧ r.depression = none) := by
  rw [merge_details, List.mem_flatMap] at hr
  obtain ⟨s, hs, hr⟩ := hr
  cases hfil : details.filter (fun d => d.patient == s.patient) with
  | nil =>
    rw [hfil] at hr
    rw [List.mem_singleton] at hr
    subst hr
    exact ⟨hs, fun _ => ⟨rfl, rfl, rfl, rfl⟩⟩
  | cons d ds =>
    rw [hfil] at hr
    rw [List.mem_map] at hr
    obtain ⟨e, he, hr⟩ := hr
    subst hr
    refine ⟨hs, fun hfalse => ?_⟩
    exfalso
    have hd : d ∈ details.filter (fun d => d.patient == s.patient) := by
      rw [hfil]; exact List.mem_cons_self d ds
    rw [List.mem_filter] at hd
    have := (List.any_eq_false.1 hfalse) d hd.1
    exact this hd.2

theorem sublist_map_flatMap {α β : Type} (l : List α) (F : α → List β) (g : β → α)
    (hne : ∀ a, F a ≠ [])
    (hg : ∀ a b, b ∈ F a → g b = a) :
    l.Sublist ((l.flatMap F).map g) := by
  induction l with
  | nil => simp
  | cons a l ih =>
    rw [List.flatMap_cons, List.map_append]
    cases hF : F a with
    | nil => exact absurd hF (hne a)
    | cons b bs =>
      rw [List.map_cons]
      have hb : g b = a := hg a b (by rw [hF]; exact List.mem_cons_self b bs)
      rw [hb]
      exact (ih.trans (List.sublist_append_right _ _)).cons₂ a

theorem sublist_map_merge_intake (intake : List IntakeRec) (scores : List ScoreRow) :
    scores.Sublist ((merge_intake scores intake).map ScoreIntakeRow.scorePart) := by
  refine sublist_map_flatMap scores _ ScoreIntakeRow.scorePart ?_ ?_
  · intro s
    cases hfil : intake.filter
        (fun i => i.patient == s.patient && i.dayNum == (s.dayNum : Int)) <;> simp
  · intro s b hb
    cases hfil : intake.filter
        (fun i => i.patient == s.patient && i.dayNum == (s.dayNum : Int)) with
    | nil =>
      rw [hfil] at hb
      rw [List.mem_singleton] at hb
      subst hb; rfl
    | cons i ms =>
      rw [hfil] at hb
      rw [List.mem_map] at hb
      obtain ⟨j, _, hj⟩ := hb
      subst hj; rfl

theorem sublist_map_merge_details (details : List DetailRec)
    (rows : List ScoreIntakeRow) :
    rows.Sublist ((merge_details rows details).map IntradayRow.scoreIntakePart) := by
  refine sublist_map_flatMap rows _ IntradayRow.scoreIntakePart ?_ ?_
  · intro s
    cases hfil : details.filter (fun d => d.patient == s.patient) <;> simp
  · intro s b hb
    cases hfil : details.filter (fun d => d.patient == s.patient) with
    | nil =>
      rw [hfil] at hb
      rw [List.mem_singleton] at hb
      subst hb; rfl
    | cons d ds =>
      rw [hfil] at hb
      rw [List.mem_map] at hb
      obtain ⟨e, _, he⟩ := hb
      subst he; rfl

/-- C4: the pain-score table is a sublist of the intraday table's pain-score
fields (no row is dropped by either left join); every intraday row whose
(`Patient`, `DayNum`) matches no intake record carries a missing intake
value, and every intraday row whose patient has no detail record carries
missing demographic fields. -/
theorem intraday_left_join_total (scores : List ScoreRow) (intake : List IntakeRec)
    (details : List DetailRec) :
    scores.Sublist ((intraday_tables scores intake details).map IntradayRow.scorePart)
    ∧ ((intraday_tables scores intake details).filter
        (fun r => !(intake.any
          (fun i => i.patient == r.patient && i.dayNum == (r.dayNum : Int))))).all
        (fun r => r.intake.isNone) = true
    ∧ ((intraday_tables scores intake details).filter
        (fun r => !(details.any (fun d => d.patient == r.patient)))).all
        (fun r => r.ageAtAdmit.isNone && r.gender.isNone && r.impairmentGroup.isNone
                  && r.depression.isNone) = true := by
  refine ⟨?_, ?_, ?_⟩
  · have h1 := sublist_map_merge_intake intake scores
    have h2 := (sublist_map_merge_details details (merge_intake scores intake)).map
      ScoreIntakeRow.scorePart
    rw [List.map_map] at h2
    exact h1.trans h2
  · rw [List.all_eq_true]
    intro r hr
    rw [List.mem_filter] at hr
    obtain ⟨hmem, hcond⟩ := hr
    have hany : intake.any
        (fun i => i.patient == r.patient && i.dayNum == (r.dayNum : Int)) = false := by
      simpa using hcond
    obtain ⟨h1, _⟩ := merge_details_mem _ _ _ hmem
    obtain ⟨_, hintake⟩ := merge_intake_mem _ _ _ h1
    have h3 : r.intake = none := hintake hany
    simp [h3]
  · rw [List.all_eq_true]
    intro r hr
    rw [List.mem_filter] at hr
    obtain ⟨hmem, hcond⟩ := hr
    have hany : details.any (fun d => d.patient == r.patient) = false := by
      simpa using hcond
    obtain ⟨_, hdet⟩ := merge_details_mem _ _ _ hmem
    obtain ⟨h3, h4, h5, h6⟩ := hdet hany
    simp [h3, h4, h5, h6]

theorem daily_filter_eq (rows : List IntradayRow) (p d : Nat) :
    (daily_data rows).filter (fun r => r.patient == p && r.dayNum == d)
      = ((dedupAppend (rows.map fun r => (r.patient, r.dayNum))).filter
          (fun k => k == (p, d))).map (fun k => aggGroup rows k.1 k.2) := by
  have hq : ((fun r : DailyRow => r.patient == p && r.dayNum == d)
        ∘ (fun k : Nat × Nat => aggGroup rows k.1 k.2))
      = (fun k : Nat × Nat => k == (p, d)) := by
    funext k
    obtain ⟨a, b⟩ := k
    rfl
  rw [daily_data, List.filter_map, hq]

theorem filter_beq_nodup {α : Type} [BEq α] [LawfulBEq α] (a : α) :
    ∀ K : List α, K.Nodup →
    K.filter (fun k => k == a) = if a ∈ K then [a] else [] := by
  intro K
  induction K with
  | nil => intro _; simp
  | cons k K ih =>
    intro hn
    obtain ⟨hkm, hn2⟩ := List.nodup_cons.1 hn
    by_cases hk : k = a
    · subst hk
      have hfil : K.filter (fun x => x == k) = [] := by
        rw [List.filter_eq_nil_iff]
        intro b hb hcond
        exact hkm (by rwa [eq_of_beq hcond] at hb)
      rw [List.filter_cons, if_pos (by simp), hfil, if_pos (List.mem_cons_self k K)]
    · have hne : (k == a) = false := by simpa using hk
      rw [List.filter_cons, if_neg (by simp [hne]), ih hn2]
      by_cases hm : a ∈ K
      · rw [if_pos hm, if_pos (List.mem_cons_of_mem k hm)]
      · rw [if_neg hm, if_neg (by
          rw [List.mem_cons]
          rintro (h | h)
          · exact hk h.symm
          · exact hm h)]

theorem key_mem_iff (rows : List IntradayRow) (p d : Nat) :
    ((p, d) ∈ rows.map (fun r => (r.patient, r.dayNum))) ↔
      rows.filter (fun r => r.patient == p && r.dayNum == d) ≠ [] := by
  rw [List.mem_map]
  constructor
  · rintro ⟨r, hr, hk⟩ hnil
    rw [List.filter_eq_nil_iff] at hnil
    have h1 : r.patient = p := congrArg Prod.fst hk
    have h2 : r.dayNum = d := congrArg Prod.snd hk
    exact hnil r hr (by simp [h1, h2])
  · intro hne
    cases hf : rows.filter (fun r => r.patient == p && r.dayNum == d) with
    | nil => exact absurd hf hne
    | cons x xs =>
      have hx : x ∈ rows.filter (fun r => r.patient == p && r.dayNum == d) := by
        rw [hf]; exact List.mem_cons_self x xs
      rw [List.mem_filter] at hx
      refine ⟨x, hx.1, ?_⟩
      have hc := hx.2
      simp only [Bool.and_eq_true, beq_iff_eq] at hc
      rw [hc.1, hc.2]

theorem foldl_painScore_sum (g : List IntradayRow) : ∀ a : ℚ,
    g.foldl (fun a r => a + r.painScore.getD 0) a
      = a + (g.filterMap (fun r => r.painScore)).sum := by
  induction g with
  | nil => intro a; simp
  | cons r g ih =>
    intro a
    rw [List.foldl_cons, ih]
    cases hr : r.painScore with
    | none => simp [List.filterMap_cons, hr]
    | some v =>
      simp only [List.filterMap_cons, hr, Option.getD_some, List.sum_cons]
      ring

/-- C3: for each (`Patient`, `DayNum`) key the daily table holds exactly one
row: its `Intake` and demographic columns are the group's first values, its
`PainScore` is the sum of the group's present pain scores (an all-missing
group sums to 0), and `NumObs` is the number of intraday rows in the group;
a key with no intraday rows has no daily row. -/
theorem daily_data_group_spec (rows : List IntradayRow) (p d : Nat) :
    (daily_data rows).filter (fun r => r.patient == p && r.dayNum == d)
      = if (rows.filter (fun r => r.patient == p && r.dayNum == d)).isEmpty then []
        else [{ patient := p, dayNum := d,
                intake := (rows.filter
                    (fun r => r.patient == p && r.dayNum == d)).head?.bind
                  (fun r => r.intake),
                painScore := ((rows.filter
                    (fun r => r.patient == p && r.dayNum == d)).filterMap
                  (fun r => r.painScore)).sum,
                numObs := (rows.filter (fun r => r.patient == p && r.dayNum == d)).length,
                ageAtAdmit := (rows.filter
                    (fun r => r.patient == p && r.dayNum == d)).head?.bind
                  (fun r => r.ageAtAdmit),
                gender := (rows.filter
                    (fun r => r.patient == p && r.dayNum == d)).head?.bind
                  (fun r => r.gender),
                impairmentGroup := (rows.filter
                    (fun r => r.patient == p && r.dayNum == d)).head?.bind
                  (fun r => r.impairmentGroup),
                depression := (rows.filter
                    (fun r => r.patient == p && r.dayNum == d)).head?.bind
                  (fun r => r.depression) }] := by
  rw [daily_filter_eq, filter_beq_nodup (p, d) _ (nodup_dedupAppend _)]
  by_cases hmem : (p, d) ∈ dedupAppend (rows.map fun r => (r.patient, r.dayNum))
  · rw [if_pos hmem, List.map_cons, List.map_nil]
    have hne : rows.filter (fun r => r.patient == p && r.dayNum == d) ≠ [] :=
      (key_mem_iff rows p d).1 ((mem_dedupAppend _ _).1 hmem)
    rw [if_neg (by simpa [List.isEmpty_iff] using hne)]
    congr 1
    simp only [aggGroup, DailyRow.mk.injEq, true_and, and_true]
    rw [foldl_painScore_sum, zero_add]
  · rw [if_neg hmem, List.map_nil]
    have hnil : rows.filter (fun r => r.patient == p && r.dayNum == d) = [] := by
      by_contra hne
      exact hmem ((mem_dedupAppend _ _).2 ((key_mem_iff rows p d).2 hne))
    rw [if_pos (by simp [hnil])]
